import Mathlib

/-!
Shallow embedding of the multi-stage medical tender discovery pipeline
(`optimized_discovery.py`, `classifier.py`, `org_cache.py`, `database.py`).

Modelling conventions:
* Python `dict`-shaped records become structures whose fields mirror the
  keys actually read by the code; `tender.get(k, '')` with string default
  becomes a `String` field (with `""` for "missing/falsy"), `tender.get(k)`
  becomes an `Option` field.
* Python `float` values (monetary values, confidences) are modelled as `ℚ`;
  Python `int` scores as `ℤ`; counts as `ℕ`.
* Timestamps are modelled as day indices (`ℕ`): `(datetime.now() - last_updated).days`
  becomes truncated subtraction `now - last_updated`.
* Python sets become `List`s with set-style insertion, dicts become
  association lists with first-match lookup.
* Python `str.lower()` is modelled for ASCII plus the Portuguese accented
  letters that occur in the code's keyword tables.
-/

namespace MedDiscovery

/-- Models Python `str.lower()` on one character, for ASCII plus the
accented Latin letters used by the keyword tables in this code base. -/
def pyLowerChar (c : Char) : Char :=
  if c.isUpper then c.toLower else
  match c with
  | 'Á' => 'á' | 'Â' => 'â' | 'Ã' => 'ã' | 'À' => 'à' | 'Ä' => 'ä'
  | 'É' => 'é' | 'Ê' => 'ê' | 'È' => 'è' | 'Ë' => 'ë'
  | 'Í' => 'í' | 'Î' => 'î' | 'Ì' => 'ì' | 'Ï' => 'ï'
  | 'Ó' => 'ó' | 'Ô' => 'ô' | 'Õ' => 'õ' | 'Ò' => 'ò' | 'Ö' => 'ö'
  | 'Ú' => 'ú' | 'Û' => 'û' | 'Ù' => 'ù' | 'Ü' => 'ü'
  | 'Ç' => 'ç'
  | other => other

/-- Models Python `str.lower()`. -/
def pyLower (s : String) : String := String.mk (s.data.map pyLowerChar)

/-- Predicate: `startsWithChars pat l` is true when `pat` is an initial segment of `l`. -/
def startsWithChars : List Char → List Char → Bool
  | [], _ => true
  | _ :: _, [] => false
  | p :: ps, c :: cs => p == c && startsWithChars ps cs

/-- Predicate: `hasSubList pat l` is true when `pat` occurs contiguously inside `l`
(Python's `pat in l` for strings). -/
def hasSubList (pat : List Char) : List Char → Bool
  | [] => startsWithChars pat []
  | c :: cs => startsWithChars pat (c :: cs) || hasSubList pat cs

/-- Python substring containment `pat in s`. -/
def strContainsSub (s pat : String) : Bool := hasSubList pat.data s.data

/-- Embeds `_normalize_cnpj` (both in `org_cache.py` and `optimized_discovery.py`):
keep only the digits of the identifier. -/
def normalize_cnpj (cnpj : String) : String := String.mk (cnpj.data.filter Char.isDigit)

/-- First-match association-list lookup, modelling Python dict lookup
(the lists we build have unique keys, as dicts do). -/
def lookupKey {β : Type} : List (String × β) → String → Option β
  | [], _ => none
  | (k, v) :: rest, key => if k = key then some v else lookupKey rest key

/-- Dict `del d[key]`: remove the entry for `key`. -/
def eraseKey {β : Type} (l : List (String × β)) (key : String) : List (String × β) :=
  l.filter (fun p => p.1 ≠ key)

/-- Dict `d[key] = v`: overwrite in place, or append a fresh entry. -/
def updateKey {β : Type} : List (String × β) → String → β → List (String × β)
  | [], key, v => [(key, v)]
  | (k, w) :: rest, key, v =>
    if k = key then (key, v) :: rest else (k, w) :: updateKey rest key v

/-- Python set `s.add(x)` on a list-modelled set. -/
def addToSet (l : List String) (x : String) : List String :=
  if x ∈ l then l else x :: l

/-- Python `int()` truncation toward zero on a rational. -/
def truncRat (q : ℚ) : ℤ := q.num.tdiv q.den

/-- Embeds `CachedOrganization` from `org_cache.py`; `last_updated` is a day index. -/
structure CachedOrganization where
  cnpj : String
  name : String
  organization_type : String
  government_level : String
  state_code : String
  is_medical : Bool
  medical_confidence : ℚ
  last_updated : ℕ
  tender_count : ℕ
deriving DecidableEq

/-- Embeds `OrganizationCache` from `org_cache.py` (the fields the claims touch:
the medical map, the non-medical set, and the max-age constant). -/
structure OrganizationCache where
  medical_orgs : List (String × CachedOrganization)
  non_medical_orgs : List String
  cache_max_age_days : ℕ
deriving DecidableEq

/-- A fresh cache as built by `OrganizationCache.__init__` before `load_cache`
runs: empty medical map, empty non-medical set, 30-day max age. -/
def emptyOrgCache : OrganizationCache :=
  { medical_orgs := [], non_medical_orgs := [], cache_max_age_days := 30 }

/-- The `known_medical_cnpjs` seed table from `org_cache.py` (first 8 CNPJ digits
→ display name), immutable after construction. -/
def known_medical_cnpjs : List (String × String) :=
  [("26989715", "Ministério da Saúde"),
   ("00394544", "ANVISA"),
   ("33781055", "Fiocruz"),
   ("46374500", "Hospital das Clínicas - USP"),
   ("46392130", "UNIFESP - Hospital São Paulo"),
   ("60742616", "Hospital Albert Einstein"),
   ("61599908", "Hospital Sírio-Libanês"),
   ("42498717", "Hospital Universitário Clementino Fraga Filho - UFRJ"),
   ("28481581", "INCA - Instituto Nacional do Câncer")]

/-- Embeds `OrganizationCache.is_cached_medical_org`: normalize the id, then check
the medical map (fresh hit returns the stored confidence; stale hit is
deleted and the function returns `None` at once), then the non-medical set
(fixed 90), then the seed table by the first 8 digits (fixed 95).
Returns the lookup verdict together with the possibly-evicted cache. -/
def is_cached_medical_org (c : OrganizationCache) (now : ℕ) (cnpj : String) :
    Option (Bool × ℚ) × OrganizationCache :=
  let cnpj_clean := normalize_cnpj cnpj
  match lookupKey c.medical_orgs cnpj_clean with
  | some cached =>
      let age_days := now - cached.last_updated
      if age_days ≤ c.cache_max_age_days then
        (some (true, cached.medical_confidence), c)
      else
        (none, { c with medical_orgs := eraseKey c.medical_orgs cnpj_clean })
  | none =>
      if cnpj_clean ∈ c.non_medical_orgs then
        (some (false, 90), c)
      else if (lookupKey known_medical_cnpjs (cnpj_clean.take 8)).isSome then
        (some (true, 95), c)
      else
        (none, c)

/-- A sampled detail item; the code only reads its `descricao` text. -/
structure Item where
  descricao : String
deriving DecidableEq

/-- One tender record, with the dict keys the embedded code reads and the
annotations later stages attach.  `orgEntCnpj`/`orgEntRazaoSocial` stand for
the nested `orgaoEntidade.cnpj` / `orgaoEntidade.razaoSocial` keys. -/
structure Tender where
  numeroControlePNCP : Option String := none
  numeroControlePNCPCompra : Option String := none
  cnpj : String := ""
  orgEntCnpj : String := ""
  orgEntRazaoSocial : String := ""
  organization_name : String := ""
  objetoCompra : String := ""
  title : String := ""
  valorTotalHomologado : Option ℚ := none
  modalidadeId : Option ℤ := none
  ano : Option ℕ := none
  anoCompra : Option ℕ := none
  sequencial : Option ℕ := none
  sequencialCompra : Option ℕ := none
  quick_filter_score : Option ℤ := none
  medical_confidence : Option ℚ := none
  auto_approved : Option Bool := none
  approval_reason : Option String := none
  sample_items : Option (List Item) := none
  sample_count : Option ℕ := none
deriving DecidableEq

/-- Python `a or b` on strings (empty string is falsy). -/
def orStr (a b : String) : String := if a ≠ "" then a else b

/-- Python `a or b` on optional naturals (`None` and `0` are falsy). -/
def orNat (a b : Option ℕ) : Option ℕ :=
  match a with
  | some n => if n ≠ 0 then some n else b
  | none => b

/-- Truthiness of an optional natural (`None` and `0` are falsy). -/
def truthyNat (a : Option ℕ) : Bool :=
  match a with
  | some n => n ≠ 0
  | none => false

/-- Computes `tender.get('orgaoEntidade', {}).get('cnpj', '') or tender.get('cnpj', '')`. -/
def tenderCnpj (t : Tender) : String := orStr t.orgEntCnpj t.cnpj

/-- The `rejection_keywords` list from `TenderClassifier.quick_medical_score`. -/
def rejection_keywords : List String :=
  ["educacao", "educação", "escola", "ensino",
   "transporte", "onibus", "ônibus", "veiculo", "veículo",
   "obras", "pavimentacao", "pavimentação", "asfalto",
   "saneamento", "esgoto", "água", "agua",
   "iluminacao", "iluminação", "luminaria", "luminária",
   "informatica", "informática", "computador", "notebook",
   "mobiliario escolar", "mobiliário escolar",
   "merenda", "alimentacao escolar", "alimentação escolar",
   "uniforme escolar", "fardamento",
   "combustivel", "combustível", "gasolina", "diesel",
   "material de limpeza", "produto de limpeza"]

/-- The `medical_org_keywords` table (keyword → points) from `quick_medical_score`. -/
def medical_org_keywords : List (String × ℤ) :=
  [("hospital", 30), ("saude", 25), ("saúde", 25), ("sus", 20),
   ("clinica", 20), ("clínica", 20), ("santa casa", 25), ("upa", 20),
   ("samu", 20), ("hemocentro", 25), ("hemoderivados", 25),
   ("maternidade", 20), ("policlinica", 20), ("policlínica", 20),
   ("pronto socorro", 20), ("pronto-socorro", 20),
   ("ambulatorio", 15), ("ambulatório", 15),
   ("posto de saude", 15), ("posto de saúde", 15),
   ("vigilancia sanitaria", 20), ("vigilância sanitária", 20)]

/-- The `medical_object_keywords` table (keyword → points) from `quick_medical_score`. -/
def medical_object_keywords : List (String × ℤ) :=
  [("medicamento", 25), ("medico", 20), ("médico", 20), ("hospitalar", 20),
   ("cirurgico", 20), ("cirúrgico", 20), ("laboratorio", 15), ("laboratório", 15),
   ("curativo", 25), ("seringa", 20), ("cateter", 20), ("equipo", 20),
   ("material penso", 20), ("material médico", 25), ("material hospitalar", 25),
   ("insumo médico", 20), ("equipamento médico", 20), ("gaze", 15),
   ("luva", 10), ("máscara", 10), ("mascara", 10)]

/-- Sum the points of the table keywords contained in `text`
(the `for keyword, points in ...: if keyword in text: score += points` loops). -/
def keywordPoints (table : List (String × ℤ)) (text : String) : ℤ :=
  table.foldl (fun acc kw => if strContainsSub text kw.1 then acc + kw.2 else acc) 0

/-- The `org_cache.is_cached_medical_org(cnpj)` call inside
`quick_medical_score` (performed only when a cache is configured and the
top-level `cnpj` is truthy): the lookup verdict together with the
possibly-evicted cache. -/
def quickCacheStep (org_cache : Option OrganizationCache) (now : ℕ) (t : Tender) :
    Option (Bool × ℚ) × Option OrganizationCache :=
  match org_cache with
  | some c =>
      if t.cnpj ≠ "" then
        let r := is_cached_medical_org c now t.cnpj
        (r.1, some r.2)
      else (none, org_cache)
  | none => (none, org_cache)

/-- Embeds `TenderClassifier.quick_medical_score` (`classifier.py`): cache check on
the top-level `cnpj` key (a medical hit returns the truncated stored
confidence, a non-medical hit rejects), hard-rejection keywords on the
organization name, ≥ 2 rejection keywords on the object text, then additive
keyword/value/modality scoring capped at 100.  Returns the score pair
together with the cache as left by the lookup. -/
def quick_medical_score (org_cache : Option OrganizationCache) (now : ℕ) (t : Tender) :
    (ℤ × Bool) × Option OrganizationCache :=
  let step := quickCacheStep org_cache now t
  let result : ℤ × Bool :=
    match step.1 with
    | some (true, confidence) => (truncRat confidence, false)
    | some (false, _) => (0, true)
    | none =>
      let org_name_lower := pyLower (orStr t.orgEntRazaoSocial t.organization_name)
      let objeto_lower := pyLower (orStr t.objetoCompra t.title)
      if rejection_keywords.any (fun kw => strContainsSub org_name_lower kw) then
        (0, true)
      else if 2 ≤ (rejection_keywords.filter (fun kw => strContainsSub objeto_lower kw)).length then
        (0, true)
      else
        let score := keywordPoints medical_org_keywords org_name_lower
        let score := score + keywordPoints medical_object_keywords objeto_lower
        let homologated_value := t.valorTotalHomologado.getD 0
        let score := if homologated_value > 50000 then score + 10
                     else if homologated_value > 100000 then score + 15
                     else score
        let score := if t.modalidadeId = some 6 ∨ t.modalidadeId = some 8 then score + 5
                     else score
        (min score 100, false)
  (result, step.2)

/-- The slice of `ProcessingConfig` Stage 2 reads (the config module is not
part of the embedded sources, so the bounds are left as parameters). -/
structure ProcessingConfig where
  min_tender_value : ℚ
  max_tender_value : Option ℚ
deriving DecidableEq

/-- Models `if self.config.max_tender_value and homologated_value > self.config.max_tender_value`
(`None` and `0` are falsy). -/
def maxValueRejects (cfg : ProcessingConfig) (v : ℚ) : Bool :=
  match cfg.max_tender_value with
  | some m => m ≠ 0 && v > m
  | none => false

/-- The engine state Stage 2 touches: the shared organization cache and the
per-run `non_medical_orgs_cache` session set. -/
structure Stage2State where
  org_cache : Option OrganizationCache
  non_medical_session : List String
deriving DecidableEq

/-- Stage 2 annotation: `tender['quick_filter_score'] = score`. -/
def setScore (t : Tender) (s : ℤ) : Tender := { t with quick_filter_score := some s }

/-- Sort key `x.get('quick_filter_score', 0)`. -/
def scoreKey (t : Tender) : ℤ := t.quick_filter_score.getD 0

/-- The filtering loop of `_stage3`-feeding `_stage2_quick_filter`: score each
tender, cache rejected organizations in the session set, apply the value
bounds, and keep (annotated) tenders scoring at least 30, in input order. -/
def stage2_filter_pass (cfg : ProcessingConfig) (now : ℕ) :
    Stage2State → List Tender → Stage2State × List Tender
  | st, [] => (st, [])
  | st, t :: ts =>
    let step := quick_medical_score st.org_cache now t
    let score := step.1.1
    let should_reject := step.1.2
    if should_reject then
      let cnpjN := normalize_cnpj (tenderCnpj t)
      stage2_filter_pass cfg now
        { org_cache := step.2, non_medical_session := addToSet st.non_medical_session cnpjN } ts
    else
      let st' : Stage2State := { st with org_cache := step.2 }
      let homologated_value := t.valorTotalHomologado.getD 0
      if homologated_value < cfg.min_tender_value then
        stage2_filter_pass cfg now st' ts
      else if maxValueRejects cfg homologated_value then
        stage2_filter_pass cfg now st' ts
      else if 30 ≤ score then
        let rest := stage2_filter_pass cfg now st' ts
        (rest.1, setScore t score :: rest.2)
      else
        stage2_filter_pass cfg now st' ts

/-- Size of the medical map of an optional cache (used to track that Stage 2
can only shrink the cache, by lazy eviction). -/
def cacheMeasure : Option OrganizationCache → ℕ
  | none => 0
  | some c => c.medical_orgs.length

/-- Descending order on the Stage 2 score (`sort(key=..., reverse=True)`). -/
def scoreDescR (a b : Tender) : Prop := scoreKey b ≤ scoreKey a

instance : DecidableRel scoreDescR := fun a b =>
  inferInstanceAs (Decidable (scoreKey b ≤ scoreKey a))

instance : IsTotal Tender scoreDescR := ⟨fun a b => le_total (scoreKey b) (scoreKey a)⟩

instance : IsTrans Tender scoreDescR := ⟨fun _ _ _ h1 h2 => le_trans h2 h1⟩

/-- Embeds `_stage2_quick_filter` (`optimized_discovery.py`): the filtering loop
followed by the stable descending sort on `quick_filter_score`.  (Python's
`list.sort` is stable; insertion sort with `scoreDescR` realizes exactly the
stable descending order.) -/
def stage2_quick_filter (cfg : ProcessingConfig) (now : ℕ) (st : Stage2State)
    (tenders : List Tender) : Stage2State × List Tender :=
  let pass := stage2_filter_pass cfg now st tenders
  (pass.1, List.insertionSort scoreDescR pass.2)

/-- The `strong_keywords` list from `_count_medical_keywords_in_object`. -/
def strong_keywords : List String :=
  ["medicamento", "remedio", "remédio", "farmaco", "fármaco",
   "hospitalar", "hospital",
   "cirurgico", "cirúrgico", "cirurgia",
   "médico", "medico",
   "laboratorio", "laboratório", "exame",
   "equipamento médico", "material médico",
   "curativo", "seringa", "cateter", "equipo",
   "diagnostico", "diagnóstico",
   "tratamento", "terapia",
   "ambulancia", "ambulância",
   "insumo médico", "insumo hospitalar",
   "material cirurgico", "material cirúrgico",
   "uti", "centro cirurgico", "centro cirúrgico",
   "pronto socorro", "pronto-socorro",
   "radiologia", "tomografia", "raio-x",
   "anestesia", "anestésico"]

/-- Embeds `_count_medical_keywords_in_object`: number of strong keywords occurring
in the lowercased object text (0 for an empty/falsy object). -/
def count_medical_keywords_in_object (objeto : String) : ℕ :=
  if objeto = "" then 0
  else
    let objeto_lower := pyLower objeto
    (strong_keywords.filter (fun kw => strContainsSub objeto_lower kw)).length

/-- Stage 3 phase 1 (`_stage3_smart_sampling`, auto-approval loop): approve a
tender without sampling when its Stage 2 score is ≥ 70, or its object has
≥ 2 strong keywords, or its score is ≥ 80; the approved record carries
`medical_confidence = min(max(score, 60 + 10*keywords), 95)` and the
formatted `approval_reason` string. -/
def stage3_phase1_approve (t : Tender) : Option Tender :=
  let quick_score := scoreKey t
  let medical_keyword_count := count_medical_keywords_in_object t.objetoCompra
  if 70 ≤ quick_score ∨ 2 ≤ medical_keyword_count ∨ 80 ≤ quick_score then
    let confidence := max quick_score (60 + (medical_keyword_count : ℤ) * 10)
    let confidence := min confidence 95
    some { t with
            medical_confidence := some (confidence : ℚ),
            auto_approved := some true,
            approval_reason := some ("score=" ++ toString quick_score ++
                                     ", keywords=" ++ toString medical_keyword_count) }
  else none

/-! ### CATMAT code extraction (`classifier.py`)

Each of the four `re.findall` patterns becomes a scanner that tries to match
at every position of the text.  This coincides with `re.findall`'s
non-overlapping semantics here because a successful match consumes only
separator and digit characters beyond its keyword, so no later match can
start inside a consumed region.  `\w` is modelled for ASCII plus the
accented Latin letters used in this code base. -/

/-- Accented Latin letters treated as word characters / lowercase targets. -/
def accentedLetters : List Char :=
  ['á', 'â', 'ã', 'à', 'ä', 'é', 'ê', 'è', 'ë', 'í', 'î', 'ì', 'ï',
   'ó', 'ô', 'õ', 'ò', 'ö', 'ú', 'û', 'ù', 'ü', 'ç',
   'Á', 'Â', 'Ã', 'À', 'Ä', 'É', 'Ê', 'È', 'Ë', 'Í', 'Î', 'Ì', 'Ï',
   'Ó', 'Ô', 'Õ', 'Ò', 'Ö', 'Ú', 'Û', 'Ù', 'Ü', 'Ç']

/-- Regex `\w` (word character) over the modelled alphabet. -/
def isWordChar (c : Char) : Bool := c.isAlphanum || c == '_' || accentedLetters.contains c

/-- Case-insensitive literal match: if the lowercased input starts with the
(lowercase) keyword, return the rest of the input. -/
def matchCI : List Char → List Char → Option (List Char)
  | [], s => some s
  | _ :: _, [] => none
  | k :: ks, c :: cs => if pyLowerChar c == k then matchCI ks cs else none

/-- Regex `[\s:]*`. -/
def dropSeps (l : List Char) : List Char := l.dropWhile (fun c => c.isWhitespace || c == ':')

/-- Pattern 1, `CATMAT[\s:]*(\d{4,8})` case-insensitive: explicit CATMAT
references; the capture takes at most 8 of the following digits. -/
def scanCatmatRefs : List Char → List String
  | [] => []
  | c :: cs =>
    let here :=
      match matchCI "catmat".data (c :: cs) with
      | some after =>
        let digs := (dropSeps after).takeWhile Char.isDigit
        if 4 ≤ digs.length then [String.mk (digs.take 8)] else []
      | none => []
    here ++ scanCatmatRefs cs

/-- Pattern 2, `BR[\s]*(\d{7,})` case-insensitive: BR catalog codes. -/
def scanBRCodes : List Char → List String
  | [] => []
  | c :: cs =>
    let here :=
      match matchCI "br".data (c :: cs) with
      | some after =>
        let digs := (after.dropWhile Char.isWhitespace).takeWhile Char.isDigit
        if 7 ≤ digs.length then [String.mk digs] else []
      | none => []
    here ++ scanBRCodes cs

/-- The alternation `(?:CÓDIGO|CLASS[EF]|CLASSIFICAÇÃO)` (the alternatives
are pairwise incompatible, so at most one can match at a position). -/
def matchClassKeyword (l : List Char) : Option (List Char) :=
  match matchCI "código".data l with
  | some r => some r
  | none =>
    match matchCI "classe".data l with
    | some r => some r
    | none =>
      match matchCI "classf".data l with
      | some r => some r
      | none => matchCI "classificação".data l

/-- Pattern 3, `(?:CÓDIGO|CLASS[EF]|CLASSIFICAÇÃO)[\s:]*(\d{4,8})`. -/
def scanClassCodes : List Char → List String
  | [] => []
  | c :: cs =>
    let here :=
      match matchClassKeyword (c :: cs) with
      | some after =>
        let digs := (dropSeps after).takeWhile Char.isDigit
        if 4 ≤ digs.length then [String.mk (digs.take 8)] else []
      | none => []
    here ++ scanClassCodes cs

/-- Pattern 4, `\b(65\d{2,6})\b`: a maximal digit run of length 4–8 starting
with "65", not adjacent to word characters (the run tracks the previous
character to decide the left boundary). -/
def scanStandalone65 (prev : Option Char) : List Char → List String
  | [] => []
  | c :: cs =>
    let boundary :=
      match prev with
      | none => true
      | some p => !(isWordChar p)
    let here :=
      if boundary then
        let digs := (c :: cs).takeWhile Char.isDigit
        let afterRun := (c :: cs).dropWhile Char.isDigit
        let afterOk :=
          match afterRun with
          | [] => true
          | d :: _ => !(isWordChar d)
        if startsWithChars ['6', '5'] digs && 4 ≤ digs.length && digs.length ≤ 8 && afterOk
        then [String.mk digs] else []
      else []
    here ++ scanStandalone65 (some c) cs

/-- Lexicographic (code-point) comparison of character lists, Python's
string ordering. -/
def charListLe : List Char → List Char → Bool
  | [], _ => true
  | _ :: _, [] => false
  | a :: as, b :: bs => if a < b then true else if b < a then false else charListLe as bs

/-- Computes `a <= b` on strings in Python's code-point order. -/
def strLeB (a b : String) : Bool := charListLe a.data b.data

/-- Insert into an ascending list of strings. -/
def insertStr (a : String) : List String → List String
  | [] => [a]
  | b :: l => if strLeB a b then a :: b :: l else b :: insertStr a l

/-- Ascending sort of the extracted codes (`sorted(list(codes))`). -/
def sortStrings : List String → List String
  | [] => []
  | a :: l => insertStr a (sortStrings l)

/-- Embeds `TenderClassifier.extract_catmat_codes`: union of the four patterns'
captures, as a sorted duplicate-free list. -/
def extract_catmat_codes (text : String) : List String :=
  if text = "" then []
  else
    sortStrings
      ((scanCatmatRefs text.data ++ scanBRCodes text.data ++
        scanClassCodes text.data ++ scanStandalone65 none text.data).eraseDups)

/-- Embeds `TenderClassifier.is_medical_catmat`: any code starting with "65"
(`code.startswith('65')`, on the character representation). -/
def is_medical_catmat (code : String) : Bool :=
  if code = "" then false else startsWithChars ['6', '5'] code.data

/-- The `medical_keywords` list inside `_analyze_sample_items`. -/
def sample_medical_keywords : List String :=
  ["curativo", "seringa", "agulha", "cateter",
   "equipo", "luva", "mascara", "máscara", "gaze",
   "medicamento", "cirurgico", "cirúrgico", "esteril", "estéril"]

/-- Per-item indicator weight inside `_analyze_sample_items`: +2 when the
description carries a medical CATMAT code, +1 when it contains a medical
keyword (both can apply). -/
def itemIndicators (item : Item) : ℕ :=
  let description := item.descricao
  let catmat_codes := extract_catmat_codes description
  let w1 := if catmat_codes.any (fun code => is_medical_catmat code) then 2 else 0
  let desc_lower := pyLower description
  let w2 := if sample_medical_keywords.any (fun kw => strContainsSub desc_lower kw) then 1 else 0
  w1 + w2

/-- Embeds `_analyze_sample_items`: indicator total over 2 checks per item, scaled
to a percentage (0 for an empty sample). -/
def analyze_sample_items (items : List Item) : ℚ :=
  if items.isEmpty then 0
  else
    let medical_indicators : ℕ := (items.map itemIndicators).sum
    let total_checks : ℕ := items.length * 2
    if 0 < total_checks then ((medical_indicators : ℚ) / (total_checks : ℚ)) * 100 else 0

/-- Result of one `sample_tender` task in Stage 3 phase 2: the approved
(annotated) tender if any, the additions the task makes to the engine's
in-memory `medical_orgs_cache` / `non_medical_orgs_cache` session sets, and
the organization cache after the task.  The code's approval branch only
checks that `self.org_cache` exists; it never writes to the
`OrganizationCache` itself, so the cache passes through unchanged. -/
structure SampleOutcome where
  approved : Option Tender
  medical_session_add : Option String
  non_medical_session_add : Option String
  org_cache_after : Option OrganizationCache
deriving DecidableEq

/-- Embeds `sample_tender` (Stage 3 phase 2), given the items the API returned for
this tender: drop the record when identifiers are missing or the sample is
empty; otherwise approve iff the analyzed confidence exceeds 50, recording
the session-set updates described in `SampleOutcome`. -/
def sample_tender (org_cache : Option OrganizationCache) (t : Tender)
    (sample_items_fetched : List Item) : SampleOutcome :=
  let cnpj := tenderCnpj t
  let year := orNat t.ano t.anoCompra
  let sequential := orNat t.sequencial t.sequencialCompra
  if ¬(cnpj ≠ "" ∧ truthyNat year ∧ truthyNat sequential) then
    ⟨none, none, none, org_cache⟩
  else if sample_items_fetched.isEmpty then
    ⟨none, none, none, org_cache⟩
  else
    let medical_confidence := analyze_sample_items sample_items_fetched
    if medical_confidence > 50 then
      let approved := { t with
                        medical_confidence := some medical_confidence,
                        sample_items := some sample_items_fetched,
                        sample_count := some sample_items_fetched.length }
      let medAdd := if org_cache.isSome ∧ medical_confidence > 70
                    then some (normalize_cnpj cnpj) else none
      ⟨some approved, medAdd, none, org_cache⟩
    else
      ⟨none, none, some (normalize_cnpj cnpj), org_cache⟩

/-- Truthy optional string (`None` and `""` are falsy). -/
def truthyOpt (o : Option String) : Option String :=
  match o with
  | some s => if s = "" then none else some s
  | none => none

/-- The set `{t.get('numeroControlePNCPCompra') for t in confirmed if t.get(...)}`. -/
def confirmedControlNumbers (confirmed : List Tender) : List String :=
  confirmed.filterMap (fun t => truthyOpt t.numeroControlePNCPCompra)

/-- Python `value in set_of_strings` where `value` may be `None`. -/
def optMem (o : Option String) (l : List String) : Bool :=
  match o with
  | some s => decide (s ∈ l)
  | none => false

/-- Normalized organization id of a tender. -/
def tenderCnpjNorm (t : Tender) : String := normalize_cnpj (tenderCnpj t)

/-- One step of building `org_tender_counts`:
`counts[cnpj] = counts.get(cnpj, 0) + 1`. -/
def bumpCount (acc : List (String × ℕ)) (k : String) : List (String × ℕ) :=
  updateKey acc k ((lookupKey acc k).getD 0 + 1)

/-- The `org_tender_counts` dict over the confirmed tenders' ids. -/
def buildOrgCounts (keys : List String) : List (String × ℕ) :=
  keys.foldl bumpCount []

/-- Models `cnpj in org_tender_counts and org_tender_counts[cnpj] >= 2`. -/
def phase3cond (counts : List (String × ℕ)) (key : String) : Bool :=
  match lookupKey counts key with
  | some n => decide (2 ≤ n)
  | none => false

/-- Phase 3 annotation: fixed confidence 75, reason `org_history`. -/
def approveOrgHistory (t : Tender) : Tender :=
  { t with
    medical_confidence := some 75,
    auto_approved := some true,
    approval_reason := some "org_history" }

/-- Embeds `remaining_from_sampling`: the not-yet-approved tenders, identified by
control number against the confirmed set. -/
def phase3remaining (confirmed needs_sampling : List Tender) : List Tender :=
  needs_sampling.filter
    (fun t => !(optMem t.numeroControlePNCPCompra (confirmedControlNumbers confirmed)))

/-- The phase 3 approval loop over the remaining tenders. -/
def phase3loop (counts : List (String × ℕ)) : List Tender → List Tender
  | [] => []
  | t :: ts =>
    if phase3cond counts (tenderCnpjNorm t) then
      approveOrgHistory t :: phase3loop counts ts
    else phase3loop counts ts

/-- Stage 3 phase 3 (`_stage3_smart_sampling`): count confirmed tenders per
normalized organization id, then append to `confirmed` every remaining
tender whose organization already has ≥ 2 confirmed tenders, annotated with
confidence 75 and reason `org_history`. -/
def stage3_phase3 (confirmed needs_sampling : List Tender) : List Tender :=
  let counts := buildOrgCounts (confirmed.map tenderCnpjNorm)
  confirmed ++ phase3loop counts (phase3remaining confirmed needs_sampling)

/-- Embeds `DatabaseOperations.filter_new_tenders` (`database.py`), with the
database contents abstracted to the list of persisted control numbers the
`ANY($1)` query consults: returns the fetched tenders whose
`numeroControlePNCP` is not already persisted, in input order. -/
def filter_new_tenders (db_control_numbers : List String)
    (fetched_tenders : List Tender) : List Tender :=
  if fetched_tenders.isEmpty then []
  else if (fetched_tenders.filterMap (fun t => truthyOpt t.numeroControlePNCP)).isEmpty then
    fetched_tenders
  else
    fetched_tenders.filter (fun t =>
      !(optMem t.numeroControlePNCP
        (db_control_numbers.filter (fun x =>
          decide (x ∈ fetched_tenders.filterMap (fun u => truthyOpt u.numeroControlePNCP))))))

/-- The deduplication verdict per record: `True` when the record's control
number is not among the persisted ones. -/
def newPred (db_control_numbers : List String) (t : Tender) : Bool :=
  match t.numeroControlePNCP with
  | some s => !(decide (s ∈ db_control_numbers))
  | none => true

/-- Outcome of reading the snapshot file in `OrganizationCache.load_cache`:
the file may be missing, raise during read/parse/entry construction
(`corrupt`), or parse into a medical map and a non-medical list. -/
inductive SnapshotRead where
  | missing
  | corrupt
  | parsed (medical_orgs : List (String × CachedOrganization)) (non_medical_orgs : List String)

/-- Embeds `OrganizationCache.load_cache`: a missing file returns early (cache
untouched); any exception is caught and resets the medical map and
non-medical set to empty; on success each parsed entry is assigned into the
medical map and the non-medical set is replaced. -/
def load_cache (c : OrganizationCache) : SnapshotRead → OrganizationCache
  | .missing => c
  | .corrupt => { c with medical_orgs := [], non_medical_orgs := [] }
  | .parsed med non =>
      { c with
        medical_orgs := med.foldl (fun acc kv => updateKey acc kv.1 kv.2) c.medical_orgs,
        non_medical_orgs := non }

/-! ### Concrete inputs used by the counterexamples and witnesses -/

/-- A tender whose Stage 2 score is 72 and whose object matches no strong
keyword. -/
def t72 : Tender := { quick_filter_score := some 72 }

/-- Already-approved tender from organization `11.222.333/0001-44`. -/
def orgXa : Tender := { numeroControlePNCPCompra := some "CN-1", orgEntCnpj := "11.222.333/0001-44" }

/-- A second already-approved tender from the same organization. -/
def orgXb : Tender := { numeroControlePNCPCompra := some "CN-2", orgEntCnpj := "11.222.333/0001-44" }

/-- A not-yet-approved tender from the same organization, with the
identifiers sampling needs. -/
def orgXc : Tender :=
  { numeroControlePNCPCompra := some "CN-3", orgEntCnpj := "11.222.333/0001-44",
    ano := some 2024, sequencial := some 7 }

/-- Another not-yet-approved tender from the same organization. -/
def orgXd : Tender :=
  { numeroControlePNCPCompra := some "CN-4", orgEntCnpj := "11.222.333/0001-44" }

/-- An item with no medical signal at all. -/
def plainItem : Item := ⟨"parafuso sextavado"⟩

/-- An item carrying a medical CATMAT code but no keyword. -/
def catmatItem : Item := ⟨"CATMAT 6510"⟩

/-- An item matching a medical keyword but carrying no CATMAT code. -/
def keywordItem : Item := ⟨"seringa descartavel"⟩

/-- An item carrying a medical CATMAT code *and* matching a keyword: it
contributes indicator weight 3 against 2 checks. -/
def bothItem : Item := ⟨"curativo CATMAT 6510"⟩

/-- A medical-map entry last updated at day 0 with confidence 80, for an
organization whose first 8 digits are also in the seed table. -/
def staleEntry : CachedOrganization :=
  { cnpj := "26989715000123", name := "Ministério da Saúde",
    organization_type := "health_secretariat", government_level := "federal",
    state_code := "DF", is_medical := true, medical_confidence := 80,
    last_updated := 0, tender_count := 1 }

/-- A cache holding only `staleEntry` in its medical map. -/
def staleCache : OrganizationCache :=
  { emptyOrgCache with medical_orgs := [("26989715000123", staleEntry)] }

/-- The same cache with the entry refreshed at day 20. -/
def freshCache : OrganizationCache :=
  { emptyOrgCache with
    medical_orgs := [("26989715000123", { staleEntry with last_updated := 20 })] }

/-- A fetched tender whose control number is already persisted. -/
def dupT : Tender := { numeroControlePNCP := some "CN-1" }

/-- A fetched tender with a new control number. -/
def newT : Tender := { numeroControlePNCP := some "CN-2" }

/-- A value-unbounded configuration. -/
def cfg0 : ProcessingConfig := { min_tender_value := 0, max_tender_value := none }

/-- Stage 2 state holding a fresh organization cache. -/
def st0 : Stage2State := { org_cache := some emptyOrgCache, non_medical_session := [] }

/-- A scoring tender: `hospital` keyword (30 points) plus the value bonus
(+10) gives Stage 2 score 40. -/
def hospT : Tender :=
  { orgEntRazaoSocial := "HOSPITAL MUNICIPAL", cnpj := "99.888.777/0001-66",
    valorTotalHomologado := some 60000 }

/-! ### Association-list and counting lemmas -/

theorem lookupKey_updateKey_self {β : Type} (l : List (String × β)) (k : String) (v : β) :
    lookupKey (updateKey l k v) k = some v := by
  induction l with
  | nil => simp [updateKey, lookupKey]
  | cons p rest ih =>
    obtain ⟨k', w⟩ := p
    by_cases h : k' = k
    · subst h
      simp [updateKey, lookupKey]
    · simp [updateKey, lookupKey, h, ih]

theorem lookupKey_updateKey_ne {β : Type} (l : List (String × β)) (k k' : String) (v : β)
    (h : k' ≠ k) : lookupKey (updateKey l k v) k' = lookupKey l k' := by
  have hkk' : ¬k = k' := fun hh => h hh.symm
  induction l with
  | nil => simp [updateKey, lookupKey, hkk']
  | cons p rest ih =>
    obtain ⟨a, w⟩ := p
    by_cases hak : a = k
    · subst hak
      simp [updateKey, lookupKey, hkk']
    · simp [updateKey, lookupKey, hak, ih]

theorem lookupKey_foldl_bumpCount (keys : List String) :
    ∀ (acc : List (String × ℕ)) (k : String),
      lookupKey (keys.foldl bumpCount acc) k =
        match lookupKey acc k with
        | some v => some (v + keys.count k)
        | none => if k ∈ keys then some (keys.count k) else none := by
  induction keys with
  | nil =>
    intro acc k
    cases h : lookupKey acc k <;> simp [h]
  | cons a keys ih =>
    intro acc k
    rw [List.foldl_cons, ih (bumpCount acc a) k]
    by_cases hak : a = k
    · subst hak
      rw [show lookupKey (bumpCount acc a) a = some ((lookupKey acc a).getD 0 + 1) from
        lookupKey_updateKey_self ..]
      cases h : lookupKey acc a <;>
        simp [h, List.count_cons] <;> omega
    · rw [show lookupKey (bumpCount acc a) k = lookupKey acc k from
        lookupKey_updateKey_ne _ _ _ _ (fun hh => hak hh.symm)]
      cases h : lookupKey acc k <;>
        simp [h, List.count_cons, hak, Ne.symm hak]

theorem buildOrgCounts_lookup (keys : List String) (k : String) :
    lookupKey (buildOrgCounts keys) k =
      if k ∈ keys then some (keys.count k) else none := by
  unfold buildOrgCounts
  rw [lookupKey_foldl_bumpCount]
  simp [lookupKey]

theorem phase3cond_eq (keys : List String) (k : String) :
    phase3cond (buildOrgCounts keys) k = decide (2 ≤ keys.count k) := by
  unfold phase3cond
  rw [buildOrgCounts_lookup]
  by_cases h : k ∈ keys
  · simp [h]
  · have h0 : keys.count k = 0 := List.count_eq_zero.mpr h
    simp [h, h0]

theorem phase3loop_eq (counts : List (String × ℕ)) (l : List Tender) :
    phase3loop counts l =
      (l.filter (fun t => phase3cond counts (tenderCnpjNorm t))).map approveOrgHistory := by
  induction l with
  | nil => simp [phase3loop]
  | cons t ts ih =>
    by_cases h : phase3cond counts (tenderCnpjNorm t) = true
    · simp [phase3loop, List.filter_cons, h, ih]
    · simp only [Bool.not_eq_true] at h
      simp [phase3loop, List.filter_cons, h, ih]

/-- Characterization of Stage 3 phase 3: exactly the remaining tenders whose
organization already has ≥ 2 confirmed tenders are appended, annotated. -/
theorem stage3_phase3_eq (confirmed needs_sampling : List Tender) :
    stage3_phase3 confirmed needs_sampling =
      confirmed ++
        ((phase3remaining confirmed needs_sampling).filter
          (fun t => decide (2 ≤ (confirmed.map tenderCnpjNorm).count (tenderCnpjNorm t)))).map
          approveOrgHistory := by
  show confirmed ++
      phase3loop (buildOrgCounts (confirmed.map tenderCnpjNorm))
        (phase3remaining confirmed needs_sampling) = _
  rw [phase3loop_eq]
  have hpred :
      (fun t => phase3cond (buildOrgCounts (confirmed.map tenderCnpjNorm)) (tenderCnpjNorm t)) =
        (fun t => decide (2 ≤ (confirmed.map tenderCnpjNorm).count (tenderCnpjNorm t))) :=
    funext fun t => phase3cond_eq _ _
  rw [hpred]

/-- Both filters of a partition together keep every element. -/
theorem length_filter_partition {α : Type} (p : α → Bool) (l : List α) :
    (l.filter p).length + (l.filter (fun x => !(p x))).length = l.length := by
  induction l with
  | nil => rfl
  | cons a l ih =>
    cases h : p a <;> simp [List.filter_cons, h] <;> omega

/-! ### Stage 2 cache-threading lemmas -/

theorem eraseKey_length_lt {β : Type} (l : List (String × β)) (k : String) (v : β)
    (h : lookupKey l k = some v) : (eraseKey l k).length < l.length := by
  induction l with
  | nil => simp [lookupKey] at h
  | cons p rest ih =>
    obtain ⟨a, w⟩ := p
    by_cases hak : a = k
    · subst hak
      have hdrop : eraseKey ((a, w) :: rest) a = eraseKey rest a := by
        simp [eraseKey, List.filter_cons]
      rw [hdrop]
      have hle : (eraseKey rest a).length ≤ rest.length := (List.filter_sublist _).length_le
      simp only [List.length_cons]
      omega
    · have hlk : lookupKey rest k = some v := by
        simpa [lookupKey, hak] using h
      have hkeep : eraseKey ((a, w) :: rest) k = (a, w) :: eraseKey rest k := by
        simp [eraseKey, List.filter_cons, hak]
      rw [hkeep]
      simp only [List.length_cons]
      exact Nat.succ_lt_succ (ih hlk)

theorem is_cached_cache_cases (c : OrganizationCache) (now : ℕ) (cnpj : String) :
    (is_cached_medical_org c now cnpj).2 = c ∨
    (is_cached_medical_org c now cnpj).2.medical_orgs.length < c.medical_orgs.length := by
  unfold is_cached_medical_org
  cases hl : lookupKey c.medical_orgs (normalize_cnpj cnpj) with
  | some e =>
    by_cases hfresh : now - e.last_updated ≤ c.cache_max_age_days
    · left
      simp [hl, hfresh]
    · right
      simp only [hl, if_neg hfresh]
      exact eraseKey_length_lt c.medical_orgs (normalize_cnpj cnpj) e hl
  | none =>
    left
    simp only [hl]
    split
    · rfl
    · split <;> rfl

theorem quick_cache_shrinks (oc : Option OrganizationCache) (now : ℕ) (t : Tender) :
    (quick_medical_score oc now t).2 = oc ∨
    cacheMeasure (quick_medical_score oc now t).2 < cacheMeasure oc := by
  show (quickCacheStep oc now t).2 = oc ∨
    cacheMeasure (quickCacheStep oc now t).2 < cacheMeasure oc
  cases oc with
  | none => left; rfl
  | some c =>
    by_cases hcn : t.cnpj ≠ ""
    · rcases is_cached_cache_cases c now t.cnpj with heq | hlt
      · left
        simp [quickCacheStep, hcn, heq]
      · right
        simp only [quickCacheStep, if_pos hcn]
        exact hlt
    · left
      simp [quickCacheStep, hcn]

theorem quick_cache_le (oc : Option OrganizationCache) (now : ℕ) (t : Tender) :
    cacheMeasure (quick_medical_score oc now t).2 ≤ cacheMeasure oc := by
  rcases quick_cache_shrinks oc now t with h | h
  · exact le_of_eq (congrArg cacheMeasure h)
  · exact le_of_lt h

/-- The function `quick_medical_score` never reads the `quick_filter_score` annotation. -/
theorem quick_score_setScore (oc : Option OrganizationCache) (now : ℕ) (t : Tender) (s : ℤ) :
    quick_medical_score oc now (setScore t s) = quick_medical_score oc now t := rfl

theorem pass_cache_le (cfg : ProcessingConfig) (now : ℕ) :
    ∀ (ts : List Tender) (st : Stage2State),
      cacheMeasure (stage2_filter_pass cfg now st ts).1.org_cache ≤
        cacheMeasure st.org_cache := by
  intro ts
  induction ts with
  | nil =>
    intro st
    exact le_refl _
  | cons t ts ih =>
    intro st
    have hle : cacheMeasure (quick_medical_score st.org_cache now t).2 ≤
        cacheMeasure st.org_cache := quick_cache_le _ _ _
    rcases hstep : quick_medical_score st.org_cache now t with ⟨⟨sc, rej⟩, oc2⟩
    rw [hstep] at hle
    simp only [stage2_filter_pass, hstep]
    split
    · exact le_trans (ih _) hle
    · split
      · exact le_trans (ih _) hle
      · split
        · exact le_trans (ih _) hle
        · split
          · exact le_trans (ih _) hle
          · exact le_trans (ih _) hle

theorem pass_survivors (cfg : ProcessingConfig) (now : ℕ) :
    ∀ (ts : List Tender) (st : Stage2State) (r : Tender),
      r ∈ (stage2_filter_pass cfg now st ts).2 →
      (∃ t ∈ ts, ∃ s : ℤ, r = setScore t s) ∧
      ¬(r.valorTotalHomologado.getD 0 < cfg.min_tender_value) ∧
      maxValueRejects cfg (r.valorTotalHomologado.getD 0) = false ∧
      (30 : ℤ) ≤ scoreKey r := by
  intro ts
  induction ts with
  | nil =>
    intro st r hr
    simp [stage2_filter_pass] at hr
  | cons t ts ih =>
    intro st r hr
    rcases hstep : quick_medical_score st.org_cache now t with ⟨⟨sc, rej⟩, oc2⟩
    simp only [stage2_filter_pass, hstep] at hr
    by_cases hrej : rej = true
    · rw [if_pos hrej] at hr
      obtain ⟨⟨t', ht', hs'⟩, h2, h3, h4⟩ := ih _ r hr
      exact ⟨⟨t', List.mem_cons_of_mem _ ht', hs'⟩, h2, h3, h4⟩
    · rw [if_neg hrej] at hr
      by_cases hv : t.valorTotalHomologado.getD 0 < cfg.min_tender_value
      · rw [if_pos hv] at hr
        obtain ⟨⟨t', ht', hs'⟩, h2, h3, h4⟩ := ih _ r hr
        exact ⟨⟨t', List.mem_cons_of_mem _ ht', hs'⟩, h2, h3, h4⟩
      · rw [if_neg hv] at hr
        by_cases hm : maxValueRejects cfg (t.valorTotalHomologado.getD 0) = true
        · rw [if_pos hm] at hr
          obtain ⟨⟨t', ht', hs'⟩, h2, h3, h4⟩ := ih _ r hr
          exact ⟨⟨t', List.mem_cons_of_mem _ ht', hs'⟩, h2, h3, h4⟩
        · rw [if_neg hm] at hr
          by_cases hsc : (30 : ℤ) ≤ sc
          · rw [if_pos hsc] at hr
            rcases List.mem_cons.mp hr with hhead | htail
            · subst hhead
              exact ⟨⟨t, List.mem_cons_self _ _, sc, rfl⟩, hv, by simpa using hm, hsc⟩
            · obtain ⟨⟨t', ht', hs'⟩, h2, h3, h4⟩ := ih _ r htail
              exact ⟨⟨t', List.mem_cons_of_mem _ ht', hs'⟩, h2, h3, h4⟩
          · rw [if_neg hsc] at hr
            obtain ⟨⟨t', ht', hs'⟩, h2, h3, h4⟩ := ih _ r hr
            exact ⟨⟨t', List.mem_cons_of_mem _ ht', hs'⟩, h2, h3, h4⟩

theorem pass_frozen (cfg : ProcessingConfig) (now : ℕ) :
    ∀ (ts : List Tender) (st : Stage2State),
      (stage2_filter_pass cfg now st ts).1.org_cache = st.org_cache →
      ∀ r ∈ (stage2_filter_pass cfg now st ts).2,
        quick_medical_score st.org_cache now r = ((scoreKey r, false), st.org_cache) ∧
        ¬(r.valorTotalHomologado.getD 0 < cfg.min_tender_value) ∧
        maxValueRejects cfg (r.valorTotalHomologado.getD 0) = false ∧
        (30 : ℤ) ≤ scoreKey r ∧
        setScore r (scoreKey r) = r := by
  intro ts
  induction ts with
  | nil =>
    intro st _ r hr
    simp [stage2_filter_pass] at hr
  | cons t ts ih =>
    intro st hfr r hr
    rcases hstep : quick_medical_score st.org_cache now t with ⟨⟨sc, rej⟩, oc2⟩
    have hoc2 : oc2 = st.org_cache := by
      rcases quick_cache_shrinks st.org_cache now t with he | hlt
      · rw [hstep] at he
        exact he
      · exfalso
        rw [hstep] at hlt
        have hfin : cacheMeasure (stage2_filter_pass cfg now st (t :: ts)).1.org_cache =
            cacheMeasure st.org_cache := congrArg cacheMeasure hfr
        have hle2 : cacheMeasure (stage2_filter_pass cfg now st (t :: ts)).1.org_cache ≤
            cacheMeasure oc2 := by
          simp only [stage2_filter_pass, hstep]
          split
          · exact pass_cache_le cfg now ts _
          · split
            · exact pass_cache_le cfg now ts _
            · split
              · exact pass_cache_le cfg now ts _
              · split
                · exact pass_cache_le cfg now ts _
                · exact pass_cache_le cfg now ts _
        simp only [cacheMeasure] at hfin hle2 hlt
        omega
    subst hoc2
    simp only [stage2_filter_pass, hstep] at hr
    by_cases hrej : rej = true
    · rw [if_pos hrej] at hr
      have hfr' : (stage2_filter_pass cfg now
          { org_cache := st.org_cache,
            non_medical_session := addToSet st.non_medical_session
              (normalize_cnpj (tenderCnpj t)) } ts).1.org_cache = st.org_cache := by
        have hcopy := hfr
        simp only [stage2_filter_pass, hstep, if_pos hrej] at hcopy
        exact hcopy
      exact ih _ hfr' r hr
    · rw [if_neg hrej] at hr
      by_cases hv : t.valorTotalHomologado.getD 0 < cfg.min_tender_value
      · rw [if_pos hv] at hr
        have hfr' : (stage2_filter_pass cfg now
            { org_cache := st.org_cache, non_medical_session := st.non_medical_session }
            ts).1.org_cache = st.org_cache := by
          have hcopy := hfr
          simp only [stage2_filter_pass, hstep, if_neg hrej, if_pos hv] at hcopy
          exact hcopy
        exact ih _ hfr' r hr
      · rw [if_neg hv] at hr
        by_cases hm : maxValueRejects cfg (t.valorTotalHomologado.getD 0) = true
        · rw [if_pos hm] at hr
          have hfr' : (stage2_filter_pass cfg now
              { org_cache := st.org_cache, non_medical_session := st.non_medical_session }
              ts).1.org_cache = st.org_cache := by
            have hcopy := hfr
            simp only [stage2_filter_pass, hstep, if_neg hrej, if_neg hv, if_pos hm] at hcopy
            exact hcopy
          exact ih _ hfr' r hr
        · rw [if_neg hm] at hr
          by_cases hsc : (30 : ℤ) ≤ sc
          · rw [if_pos hsc] at hr
            have hfr' : (stage2_filter_pass cfg now
                { org_cache := st.org_cache, non_medical_session := st.non_medical_session }
                ts).1.org_cache = st.org_cache := by
              have hcopy := hfr
              simp only [stage2_filter_pass, hstep, if_neg hrej, if_neg hv, if_neg hm,
                if_pos hsc] at hcopy
              exact hcopy
            rcases List.mem_cons.mp hr with hhead | htail
            · subst hhead
              have hrejf : rej = false := by simpa using hrej
              refine ⟨?_, hv, by simpa using hm, hsc, rfl⟩
              rw [quick_score_setScore, hstep, hrejf]
              rfl
            · exact ih _ hfr' r htail
          · rw [if_neg hsc] at hr
            have hfr' : (stage2_filter_pass cfg now
                { org_cache := st.org_cache, non_medical_session := st.non_medical_session }
                ts).1.org_cache = st.org_cache := by
              have hcopy := hfr
              simp only [stage2_filter_pass, hstep, if_neg hrej, if_neg hv, if_neg hm,
                if_neg hsc] at hcopy
              exact hcopy
            exact ih _ hfr' r hr

theorem pass_rerun (cfg : ProcessingConfig) (now : ℕ) :
    ∀ (l : List Tender) (st : Stage2State),
      (∀ r ∈ l,
        quick_medical_score st.org_cache now r = ((scoreKey r, false), st.org_cache) ∧
        ¬(r.valorTotalHomologado.getD 0 < cfg.min_tender_value) ∧
        maxValueRejects cfg (r.valorTotalHomologado.getD 0) = false ∧
        (30 : ℤ) ≤ scoreKey r ∧
        setScore r (scoreKey r) = r) →
      stage2_filter_pass cfg now st l = (st, l) := by
  intro l
  induction l with
  | nil =>
    intro st _
    rfl
  | cons r l ih =>
    intro st hl
    obtain ⟨hq, hv, hm, hs, hset⟩ := hl r (List.mem_cons_self _ _)
    have hrest : ∀ u ∈ l,
        quick_medical_score st.org_cache now u = ((scoreKey u, false), st.org_cache) ∧
        ¬(u.valorTotalHomologado.getD 0 < cfg.min_tender_value) ∧
        maxValueRejects cfg (u.valorTotalHomologado.getD 0) = false ∧
        (30 : ℤ) ≤ scoreKey u ∧
        setScore u (scoreKey u) = u :=
      fun u hu => hl u (List.mem_cons_of_mem _ hu)
    simp only [stage2_filter_pass, hq]
    rw [if_neg (by simp), if_neg hv, if_neg (by simp [hm]), if_pos hs]
    have hrec := ih { org_cache := st.org_cache, non_medical_session := st.non_medical_session }
      hrest
    rw [hrec, hset]

/-! ### Evaluation lemmas (the `Rat` arithmetic operations are irreducible,
so concrete confidences are computed via `norm_num`) -/

theorem analyze_plainItem_eq : analyze_sample_items [plainItem] = 0 := by
  show ((0 : ℕ) : ℚ) / ((2 : ℕ) : ℚ) * 100 = 0
  norm_num

theorem analyze_bothItem_eq : analyze_sample_items [bothItem] = 150 := by
  show ((3 : ℕ) : ℚ) / ((2 : ℕ) : ℚ) * 100 = 150
  norm_num

theorem analyze_kwCat_eq : analyze_sample_items [keywordItem, catmatItem] = 75 := by
  show ((3 : ℕ) : ℚ) / ((4 : ℕ) : ℚ) * 100 = 75
  norm_num

/-- Reduction of `sample_tender` on the approval path. -/
theorem sample_tender_approved_eq (oc : Option OrganizationCache) (t : Tender)
    (items : List Item)
    (hid : tenderCnpj t ≠ "" ∧ truthyNat (orNat t.ano t.anoCompra) = true ∧
      truthyNat (orNat t.sequencial t.sequencialCompra) = true)
    (hne : items.isEmpty = false)
    (hconf : 50 < analyze_sample_items items) :
    sample_tender oc t items =
      { approved := some { t with
            medical_confidence := some (analyze_sample_items items),
            sample_items := some items,
            sample_count := some items.length },
        medical_session_add :=
          if oc.isSome ∧ 70 < analyze_sample_items items
          then some (normalize_cnpj (tenderCnpj t)) else none,
        non_medical_session_add := none,
        org_cache_after := oc } := by
  simp only [sample_tender]
  rw [if_neg (not_not_intro ⟨hid.1, by simp [hid.2.1], by simp [hid.2.2]⟩),
    if_neg (by simp [hne]), if_pos hconf]

/-- Reduction of `sample_tender` on the rejection path. -/
theorem sample_tender_rejected_eq (oc : Option OrganizationCache) (t : Tender)
    (items : List Item)
    (hid : tenderCnpj t ≠ "" ∧ truthyNat (orNat t.ano t.anoCompra) = true ∧
      truthyNat (orNat t.sequencial t.sequencialCompra) = true)
    (hne : items.isEmpty = false)
    (hconf : ¬50 < analyze_sample_items items) :
    sample_tender oc t items =
      { approved := none,
        medical_session_add := none,
        non_medical_session_add := some (normalize_cnpj (tenderCnpj t)),
        org_cache_after := oc } := by
  simp only [sample_tender]
  rw [if_neg (not_not_intro ⟨hid.1, by simp [hid.2.1], by simp [hid.2.2]⟩),
    if_neg (by simp [hne]), if_neg hconf]

/-! ### Claim theorems -/

/-- C8: restoring the reputation-cache snapshot from a missing file leaves
the freshly initialized cache empty and unchanged, and restoring from a
corrupt/unparsable file resets the medical map and the non-medical set to
empty for any prior state; `load_cache` is total, so neither case raises,
and the cache keeps operating in memory afterwards. -/
theorem C8_load_cache_missing_or_corrupt :
    load_cache emptyOrgCache SnapshotRead.missing = emptyOrgCache ∧
    (∀ c : OrganizationCache,
      (load_cache c SnapshotRead.corrupt).medical_orgs = [] ∧
      (load_cache c SnapshotRead.corrupt).non_medical_orgs = []) :=
  ⟨rfl, fun _ => ⟨rfl, rfl⟩⟩

/-- C6: in Stage 3 phase 3, every remaining not-yet-approved tender whose
organization already has ≥ 2 confirmed tenders in this run is appended to
the confirmed list with confidence 75 and reason `org_history`; the output
is exactly the confirmed list followed by those (and only those)
approvals, so organizations with fewer than 2 confirmed tenders gain
nothing. -/
theorem C6_org_history_approval (confirmed needs_sampling : List Tender) :
    (∀ t ∈ phase3remaining confirmed needs_sampling,
      2 ≤ (confirmed.map tenderCnpjNorm).count (tenderCnpjNorm t) →
      approveOrgHistory t ∈ stage3_phase3 confirmed needs_sampling) ∧
    stage3_phase3 confirmed needs_sampling =
      confirmed ++
        ((phase3remaining confirmed needs_sampling).filter
          (fun t => decide (2 ≤ (confirmed.map tenderCnpjNorm).count (tenderCnpjNorm t)))).map
          approveOrgHistory ∧
    (∀ t : Tender,
      (approveOrgHistory t).medical_confidence = some 75 ∧
      (approveOrgHistory t).auto_approved = some true ∧
      (approveOrgHistory t).approval_reason = some "org_history") := by
  refine ⟨?_, stage3_phase3_eq confirmed needs_sampling, fun _ => ⟨rfl, rfl, rfl⟩⟩
  intro t ht hc
  rw [stage3_phase3_eq]
  exact List.mem_append_right _
    (List.mem_map_of_mem _ (List.mem_filter.mpr ⟨ht, decide_eq_true hc⟩))

/-- C6 witness: two confirmed tenders from organization X and a remaining
third from X; the third is approved by phase 3. -/
theorem C6_witness :
    approveOrgHistory orgXd ∈ stage3_phase3 [orgXa, orgXb] [orgXd] :=
  (C6_org_history_approval [orgXa, orgXb] [orgXd]).1 orgXd (by decide) (by decide)

/-- C10: a record rejected by phase 2 sampling (no approval, organization
written into the per-run non-medical set) is still approved by phase 3 with
confidence 75 and reason `org_history` whenever its organization ends
phase 2 with ≥ 2 approved records and its control number is not among the
confirmed ones. -/
theorem C10_rejected_then_org_history
    (oc : Option OrganizationCache) (t : Tender) (items : List Item)
    (confirmed needs_sampling : List Tender)
    (_hrej : (sample_tender oc t items).approved = none)
    (_hwrote : (sample_tender oc t items).non_medical_session_add = some (tenderCnpjNorm t))
    (hmem : t ∈ needs_sampling)
    (hcn : optMem t.numeroControlePNCPCompra (confirmedControlNumbers confirmed) = false)
    (hcount : 2 ≤ (confirmed.map tenderCnpjNorm).count (tenderCnpjNorm t)) :
    approveOrgHistory t ∈ stage3_phase3 confirmed needs_sampling ∧
    (approveOrgHistory t).medical_confidence = some 75 ∧
    (approveOrgHistory t).approval_reason = some "org_history" := by
  refine ⟨?_, rfl, rfl⟩
  have hrem : t ∈ phase3remaining confirmed needs_sampling := by
    refine List.mem_filter.mpr ⟨hmem, ?_⟩
    simp [hcn]
  rw [stage3_phase3_eq]
  exact List.mem_append_right _
    (List.mem_map_of_mem _ (List.mem_filter.mpr ⟨hrem, decide_eq_true hcount⟩))

/-- C10 witness: `orgXc` is rejected by sampling on a signal-free item (its
organization id goes to the non-medical session set), yet phase 3 approves
it because `orgXa` and `orgXb` from the same organization are confirmed. -/
theorem C10_witness :
    approveOrgHistory orgXc ∈ stage3_phase3 [orgXa, orgXb] [orgXc] := by
  have hred := sample_tender_rejected_eq none orgXc [plainItem]
    ⟨by decide, by decide, by decide⟩ (by decide)
    (by rw [analyze_plainItem_eq]; norm_num)
  exact (C10_rejected_then_org_history none orgXc [plainItem] [orgXa, orgXb] [orgXc]
    (by rw [hred]) (by rw [hred]; rfl) (by decide) (by decide) (by decide)).1

/-- C1: the claim that Stage 3 confidences stay in [0, 100] fails on the
phase 2 analyzer: a single sampled item whose description carries a medical
CATMAT code *and* a medical keyword contributes indicator weight 3 against
2 checks, and `_analyze_sample_items` returns 150; the same sample is then
approved (150 > 50), so the record completes the pipeline with confidence
150, contradicting the function's own `0-100` contract. -/
theorem C1_sample_confidence_out_of_range :
    analyze_sample_items [bothItem] = 150 ∧
    ¬(analyze_sample_items [bothItem] ≤ 100) ∧
    (sample_tender (some emptyOrgCache) orgXc [bothItem]).approved.isSome = true := by
  refine ⟨analyze_bothItem_eq, by rw [analyze_bothItem_eq]; norm_num, ?_⟩
  rw [sample_tender_approved_eq (some emptyOrgCache) orgXc [bothItem]
    ⟨by decide, by decide, by decide⟩ (by decide)
    (by rw [analyze_bothItem_eq]; norm_num)]
  rfl

/-- C2, counterexample: the identifier `26.989.715/0001-23` has a stale
medical-map entry (age 31 > 30) *and* its first 8 digits are in the seed
table, yet `is_cached_medical_org` returns absent — the stale read evicts
and returns at once instead of falling through to the non-medical set and
the seed table, contradicting "only if none of the three match does lookup
return absent". -/
theorem C2_counterexample :
    lookupKey staleCache.medical_orgs (normalize_cnpj "26.989.715/0001-23") = some staleEntry ∧
    staleCache.cache_max_age_days < 31 - staleEntry.last_updated ∧
    (lookupKey known_medical_cnpjs ((normalize_cnpj "26.989.715/0001-23").take 8)).isSome = true ∧
    (is_cached_medical_org staleCache 31 "26.989.715/0001-23").1 = none := by
  refine ⟨by decide, by decide, by decide, by decide⟩

/-- C2, amended: lookup normalizes to digits and checks the medical map
first — a fresh hit returns `(true, stored confidence)`, a stale hit is
evicted on that read and lookup returns absent immediately (no
fall-through); only identifiers with no medical-map entry are checked
against the non-medical set `(false, 90)` and then the seed table on the
first 8 digits `(true, 95)`; otherwise lookup returns absent with the cache
unchanged. -/
theorem C2_lookup_amended (c : OrganizationCache) (now : ℕ) (cnpj : String) :
    (∀ e, lookupKey c.medical_orgs (normalize_cnpj cnpj) = some e →
      (now - e.last_updated ≤ c.cache_max_age_days →
        is_cached_medical_org c now cnpj = (some (true, e.medical_confidence), c)) ∧
      (c.cache_max_age_days < now - e.last_updated →
        is_cached_medical_org c now cnpj =
          (none, { c with
            medical_orgs := eraseKey c.medical_orgs (normalize_cnpj cnpj) }))) ∧
    (lookupKey c.medical_orgs (normalize_cnpj cnpj) = none →
      (normalize_cnpj cnpj ∈ c.non_medical_orgs →
        is_cached_medical_org c now cnpj = (some (false, 90), c)) ∧
      (normalize_cnpj cnpj ∉ c.non_medical_orgs →
        (∀ nm, lookupKey known_medical_cnpjs ((normalize_cnpj cnpj).take 8) = some nm →
          is_cached_medical_org c now cnpj = (some (true, 95), c)) ∧
        (lookupKey known_medical_cnpjs ((normalize_cnpj cnpj).take 8) = none →
          is_cached_medical_org c now cnpj = (none, c)))) := by
  refine ⟨?_, ?_⟩
  · intro e he
    refine ⟨fun hfresh => ?_, fun hstale => ?_⟩
    · simp [is_cached_medical_org, he, hfresh]
    · have hnf : ¬(now - e.last_updated ≤ c.cache_max_age_days) := by omega
      simp [is_cached_medical_org, he, hnf]
  · intro hnone
    refine ⟨fun hin => ?_, fun hnotin => ⟨fun nm hnm => ?_, fun hnoseed => ?_⟩⟩
    · simp [is_cached_medical_org, hnone, hin]
    · simp [is_cached_medical_org, hnone, hnotin, hnm]
    · simp [is_cached_medical_org, hnone, hnotin, hnoseed]

/-- C2 witness: on a cache whose only medical entry was refreshed at day 20,
lookup at day 25 is a fresh hit returning the stored confidence 80. -/
theorem C2_witness :
    is_cached_medical_org freshCache 25 "26.989.715/0001-23" =
      (some (true, 80), freshCache) :=
  ((C2_lookup_amended freshCache 25 "26.989.715/0001-23").1
    { staleEntry with last_updated := 20 } (by decide)).1 (by decide)

/-- C3, counterexample: a sampled record approved with confidence 75 > 70
does *not* get its organization written into the reputation cache — the
code only adds the id to the engine's in-memory session set and returns the
`OrganizationCache` unchanged (still without any medical entry for the
organization), contradicting "written into the Reputation Cache as
medical". -/
theorem C3_counterexample :
    analyze_sample_items [keywordItem, catmatItem] = 75 ∧
    (sample_tender (some emptyOrgCache) orgXc [keywordItem, catmatItem]).approved.isSome = true ∧
    (sample_tender (some emptyOrgCache) orgXc [keywordItem, catmatItem]).medical_session_add =
      some (tenderCnpjNorm orgXc) ∧
    (sample_tender (some emptyOrgCache) orgXc [keywordItem, catmatItem]).org_cache_after =
      some emptyOrgCache ∧
    lookupKey emptyOrgCache.medical_orgs (tenderCnpjNorm orgXc) = none := by
  have h70 : 70 < analyze_sample_items [keywordItem, catmatItem] := by
    rw [analyze_kwCat_eq]
    norm_num
  have hred := sample_tender_approved_eq (some emptyOrgCache) orgXc [keywordItem, catmatItem]
    ⟨by decide, by decide, by decide⟩ (by decide)
    (by rw [analyze_kwCat_eq]; norm_num)
  refine ⟨analyze_kwCat_eq, ?_, ?_, ?_, by decide⟩
  · rw [hred]
    rfl
  · rw [hred]
    simp [h70, tenderCnpjNorm]
  · rw [hred]

/-- C3, amended: for every record phase 2 actually analyzes (identifiers
present, non-empty sample), the confidence is
`(indicatorWeight / (2 × itemCount)) × 100` with per-item weight 2 for a
medical CATMAT code plus 1 for a keyword match; the record is approved iff
confidence > 50; on approval with confidence > 70 the organization's
normalized id is added to the engine's per-run in-memory medical set (only
when a reputation cache is configured), on rejection it is added to the
per-run non-medical set; the reputation cache itself is never written. -/
theorem C3_phase2_amended (oc : Option OrganizationCache) (t : Tender) (items : List Item)
    (hc : tenderCnpj t ≠ "")
    (hy : truthyNat (orNat t.ano t.anoCompra) = true)
    (hs : truthyNat (orNat t.sequencial t.sequencialCompra) = true)
    (hne : items ≠ []) :
    analyze_sample_items items =
      ((items.map itemIndicators).sum : ℚ) / ((2 * items.length : ℕ) : ℚ) * 100 ∧
    (∀ i : Item, itemIndicators i =
      (if (extract_catmat_codes i.descricao).any (fun code => is_medical_catmat code)
       then 2 else 0) +
      (if sample_medical_keywords.any (fun kw => strContainsSub (pyLower i.descricao) kw)
       then 1 else 0)) ∧
    ((sample_tender oc t items).approved.isSome = true ↔ 50 < analyze_sample_items items) ∧
    (50 < analyze_sample_items items →
      (sample_tender oc t items).approved =
        some { t with
          medical_confidence := some (analyze_sample_items items),
          sample_items := some items,
          sample_count := some items.length } ∧
      (sample_tender oc t items).medical_session_add =
        (if oc.isSome ∧ 70 < analyze_sample_items items
         then some (tenderCnpjNorm t) else none) ∧
      (sample_tender oc t items).non_medical_session_add = none) ∧
    (¬50 < analyze_sample_items items →
      (sample_tender oc t items).approved = none ∧
      (sample_tender oc t items).medical_session_add = none ∧
      (sample_tender oc t items).non_medical_session_add = some (tenderCnpjNorm t)) ∧
    (sample_tender oc t items).org_cache_after = oc := by
  have hne' : items.isEmpty = false := by
    cases items with
    | nil => exact absurd rfl hne
    | cons a l => rfl
  have hformula : analyze_sample_items items =
      ((items.map itemIndicators).sum : ℚ) / ((2 * items.length : ℕ) : ℚ) * 100 := by
    unfold analyze_sample_items
    rw [if_neg (by simp [hne']), if_pos (by cases items with
      | nil => exact absurd rfl hne
      | cons a l => simp)]
    rw [Nat.mul_comm items.length 2]
  by_cases hconf : 50 < analyze_sample_items items
  · have hred := sample_tender_approved_eq oc t items ⟨hc, hy, hs⟩ hne' hconf
    refine ⟨hformula, fun i => rfl, ?_, ?_, fun hc' => absurd hconf hc', ?_⟩
    · rw [hred]
      simp [hconf]
    · intro _
      rw [hred]
      exact ⟨rfl, rfl, rfl⟩
    · rw [hred]
  · have hred := sample_tender_rejected_eq oc t items ⟨hc, hy, hs⟩ hne' hconf
    refine ⟨hformula, fun i => rfl, ?_, fun hc' => absurd hc' hconf, ?_, ?_⟩
    · rw [hred]
      simp [hconf]
    · intro _
      rw [hred]
      exact ⟨rfl, rfl, rfl⟩
    · rw [hred]

/-- C3 witness: a two-item sample (one keyword item, one CATMAT item) gives
confidence 75 > 50, so the record is approved and, since 75 > 70, its
organization id enters the per-run medical session set. -/
theorem C3_witness :
    (sample_tender (some emptyOrgCache) orgXc [keywordItem, catmatItem]).approved =
      some { orgXc with
        medical_confidence := some (analyze_sample_items [keywordItem, catmatItem]),
        sample_items := some [keywordItem, catmatItem],
        sample_count := some 2 } :=
  ((C3_phase2_amended (some emptyOrgCache) orgXc [keywordItem, catmatItem]
    (by decide) (by decide) (by decide) (by decide)).2.2.2.1
    (by rw [analyze_kwCat_eq]; norm_num)).1

/-- C4, counterexample: the record with Stage 2 score 72 and no keywords is
approved, but its reason tag is the formatted string
`score=72, keywords=0`, not the claimed literal `score+keywords`. -/
theorem C4_counterexample :
    (stage3_phase1_approve t72).map Tender.approval_reason =
      some (some "score=72, keywords=0") ∧
    (stage3_phase1_approve t72).map Tender.approval_reason ≠
      some (some "score+keywords") := by
  refine ⟨by decide, by decide⟩

/-- C4, amended: Stage 3 phase 1 approves iff score ≥ 70 or ≥ 2 strong
keywords or score ≥ 80; an approved record's confidence is
`min(95, max(score, 60 + 10×keywordCount))` and its reason tag is the
formatted string `score=<score>, keywords=<count>`; in particular score 72
with 0 keywords is approved with confidence 72. -/
theorem C4_phase1_amended (t : Tender) :
    ((stage3_phase1_approve t).isSome = true ↔
      (70 ≤ scoreKey t ∨ 2 ≤ count_medical_keywords_in_object t.objetoCompra ∨
        80 ≤ scoreKey t)) ∧
    (∀ r, stage3_phase1_approve t = some r →
      r.medical_confidence =
        some ((min (max (scoreKey t)
          (60 + (count_medical_keywords_in_object t.objetoCompra : ℤ) * 10)) 95 : ℤ) : ℚ) ∧
      r.auto_approved = some true ∧
      r.approval_reason = some ("score=" ++ toString (scoreKey t) ++ ", keywords=" ++
        toString (count_medical_keywords_in_object t.objetoCompra))) ∧
    (scoreKey t = 72 → count_medical_keywords_in_object t.objetoCompra = 0 →
      (stage3_phase1_approve t).map Tender.medical_confidence = some (some 72)) := by
  by_cases hcond : (70 ≤ scoreKey t ∨ 2 ≤ count_medical_keywords_in_object t.objetoCompra ∨
      80 ≤ scoreKey t)
  · refine ⟨by simp [stage3_phase1_approve, hcond], ?_, ?_⟩
    · intro r hr
      simp only [stage3_phase1_approve, if_pos hcond, Option.some.injEq] at hr
      subst hr
      exact ⟨rfl, rfl, rfl⟩
    · intro h72 hk0
      simp only [stage3_phase1_approve, if_pos hcond, h72, hk0]
      norm_num
  · refine ⟨by simp [stage3_phase1_approve, hcond], ?_, ?_⟩
    · intro r hr
      simp [stage3_phase1_approve, if_neg hcond] at hr
    · intro h72 hk0
      exact absurd (Or.inl (by omega)) hcond

/-- C4 witness: the amended theorem applied to the score-72 record. -/
theorem C4_witness :
    (stage3_phase1_approve t72).map Tender.medical_confidence = some (some 72) :=
  (C4_phase1_amended t72).2.2 (by decide) (by decide)

/-- C7: on a batch in which every record carries a (truthy) external
control number, deduplication returns exactly the records whose control
number is not persisted — a filter of the input, hence order-preserving and
a sublist — and the kept and dropped records together account for the whole
batch (N−K kept when K are persisted). -/
theorem C7_filter_new_tenders (db : List String) (ts : List Tender)
    (h : ∀ t ∈ ts, ∃ s, t.numeroControlePNCP = some s ∧ s ≠ "") :
    filter_new_tenders db ts = ts.filter (newPred db) ∧
    (ts.filter (newPred db)).Sublist ts ∧
    (ts.filter (newPred db)).length +
      (ts.filter (fun t => !(newPred db t))).length = ts.length := by
  refine ⟨?_, List.filter_sublist _, length_filter_partition _ _⟩
  cases ts with
  | nil => rfl
  | cons t0 rest =>
    obtain ⟨s0, hs0, hne0⟩ := h t0 (List.mem_cons_self _ _)
    have hcns0 : s0 ∈ (t0 :: rest).filterMap (fun u => truthyOpt u.numeroControlePNCP) :=
      List.mem_filterMap.mpr ⟨t0, List.mem_cons_self _ _, by simp [truthyOpt, hs0, hne0]⟩
    have hne1 : ¬((t0 :: rest).isEmpty = true) := by simp
    have hne2 :
        ¬(((t0 :: rest).filterMap fun u => truthyOpt u.numeroControlePNCP).isEmpty = true) := by
      intro hemp
      cases hfm : ((t0 :: rest).filterMap fun u => truthyOpt u.numeroControlePNCP) with
      | nil =>
        rw [hfm] at hcns0
        exact absurd hcns0 (List.not_mem_nil s0)
      | cons a l =>
        rw [hfm] at hemp
        exact absurd hemp (by simp)
    unfold filter_new_tenders
    rw [if_neg hne1, if_neg hne2]
    apply List.filter_congr
    intro u hu
    obtain ⟨su, hsu, hsune⟩ := h u hu
    have hcnsu : su ∈ (t0 :: rest).filterMap (fun v => truthyOpt v.numeroControlePNCP) :=
      List.mem_filterMap.mpr ⟨u, hu, by simp [truthyOpt, hsu, hsune]⟩
    simp only [optMem, newPred, hsu]
    have hiff :
        (su ∈ db.filter (fun x =>
          decide (x ∈ (t0 :: rest).filterMap fun v => truthyOpt v.numeroControlePNCP))) ↔
          su ∈ db := by
      constructor
      · intro hx
        exact (List.mem_filter.mp hx).1
      · intro hx
        exact List.mem_filter.mpr ⟨hx, decide_eq_true hcnsu⟩
    rw [decide_eq_decide.mpr hiff]

/-- C7 witness: of two fetched records with control numbers `CN-1` (already
persisted) and `CN-2` (new), deduplication keeps exactly the second. -/
theorem C7_witness : filter_new_tenders ["CN-1"] [dupT, newT] = [newT] := by
  have hh : ∀ t ∈ [dupT, newT], ∃ s, t.numeroControlePNCP = some s ∧ s ≠ "" := by
    intro t ht
    rcases List.mem_cons.mp ht with h1 | h2
    · exact ⟨"CN-1", by rw [h1]; exact ⟨rfl, by decide⟩⟩
    · rcases List.mem_cons.mp h2 with h3 | h4
      · exact ⟨"CN-2", by rw [h3]; exact ⟨rfl, by decide⟩⟩
      · exact absurd h4 (List.not_mem_nil t)
  rw [(C7_filter_new_tenders ["CN-1"] [dupT, newT] hh).1]
  decide

/-- C5: Stage 2's output consists of input records (annotated with their
score); every output record passes the configured minimum/maximum value
bounds and has quick score ≥ the pass threshold 30; and the output is
pairwise sorted by that score in descending order. -/
theorem C5_stage2_filter (cfg : ProcessingConfig) (now : ℕ) (st : Stage2State)
    (ts : List Tender) :
    (∀ r ∈ (stage2_quick_filter cfg now st ts).2, ∃ t ∈ ts, ∃ s : ℤ, r = setScore t s) ∧
    (∀ r ∈ (stage2_quick_filter cfg now st ts).2,
      cfg.min_tender_value ≤ r.valorTotalHomologado.getD 0 ∧
      maxValueRejects cfg (r.valorTotalHomologado.getD 0) = false ∧
      (30 : ℤ) ≤ scoreKey r) ∧
    List.Pairwise scoreDescR (stage2_quick_filter cfg now st ts).2 := by
  have hmem : ∀ r ∈ (stage2_quick_filter cfg now st ts).2,
      r ∈ (stage2_filter_pass cfg now st ts).2 := by
    intro r hr
    exact (List.perm_insertionSort scoreDescR (stage2_filter_pass cfg now st ts).2).mem_iff.mp hr
  refine ⟨?_, ?_, ?_⟩
  · intro r hr
    exact (pass_survivors cfg now ts st r (hmem r hr)).1
  · intro r hr
    obtain ⟨_, h2, h3, h4⟩ := pass_survivors cfg now ts st r (hmem r hr)
    exact ⟨not_lt.mp h2, h3, h4⟩
  · exact List.sorted_insertionSort scoreDescR (stage2_filter_pass cfg now st ts).2

/-- C5 witness: on the one-element batch `[hospT]` with unbounded values,
Stage 2 admits the record with score 40, which satisfies the bounds and the
threshold. -/
theorem C5_witness :
    cfg0.min_tender_value ≤ (setScore hospT 40).valorTotalHomologado.getD 0 ∧
    maxValueRejects cfg0 ((setScore hospT 40).valorTotalHomologado.getD 0) = false ∧
    (30 : ℤ) ≤ scoreKey (setScore hospT 40) :=
  (C5_stage2_filter cfg0 0 st0 [hospT]).2.1 (setScore hospT 40) (by decide)

/-- C9: Stage 2 is idempotent when the first application leaves the
reputation cache unchanged: applying it again to its own admitted output
(from the state the first application returned) yields the very same
admitted list — same records, same scores, same order — and the same
state. -/
theorem C9_stage2_idempotent (cfg : ProcessingConfig) (now : ℕ) (st : Stage2State)
    (ts : List Tender)
    (h : (stage2_quick_filter cfg now st ts).1.org_cache = st.org_cache) :
    stage2_quick_filter cfg now (stage2_quick_filter cfg now st ts).1
        (stage2_quick_filter cfg now st ts).2 =
      ((stage2_quick_filter cfg now st ts).1, (stage2_quick_filter cfg now st ts).2) := by
  have hfrozen : (stage2_filter_pass cfg now st ts).1.org_cache = st.org_cache := h
  have hsurv := pass_frozen cfg now ts st hfrozen
  have hmem : ∀ r ∈ (stage2_quick_filter cfg now st ts).2,
      r ∈ (stage2_filter_pass cfg now st ts).2 := by
    intro r hr
    exact (List.perm_insertionSort scoreDescR (stage2_filter_pass cfg now st ts).2).mem_iff.mp hr
  have hprops : ∀ r ∈ (stage2_quick_filter cfg now st ts).2,
      quick_medical_score (stage2_filter_pass cfg now st ts).1.org_cache now r =
        ((scoreKey r, false), (stage2_filter_pass cfg now st ts).1.org_cache) ∧
      ¬(r.valorTotalHomologado.getD 0 < cfg.min_tender_value) ∧
      maxValueRejects cfg (r.valorTotalHomologado.getD 0) = false ∧
      (30 : ℤ) ≤ scoreKey r ∧
      setScore r (scoreKey r) = r := by
    intro r hr
    rw [hfrozen]
    exact hsurv r (hmem r hr)
  have hrerun : stage2_filter_pass cfg now (stage2_filter_pass cfg now st ts).1
      (stage2_quick_filter cfg now st ts).2 =
      ((stage2_filter_pass cfg now st ts).1, (stage2_quick_filter cfg now st ts).2) :=
    pass_rerun cfg now _ _ hprops
  have hsorted : List.Sorted scoreDescR (stage2_quick_filter cfg now st ts).2 :=
    List.sorted_insertionSort scoreDescR (stage2_filter_pass cfg now st ts).2
  show ((stage2_filter_pass cfg now (stage2_filter_pass cfg now st ts).1
      (stage2_quick_filter cfg now st ts).2).1,
    List.insertionSort scoreDescR (stage2_filter_pass cfg now
      (stage2_filter_pass cfg now st ts).1 (stage2_quick_filter cfg now st ts).2).2) = _
  rw [hrerun]
  rw [hsorted.insertionSort_eq]
  rfl

/-- C9 witness: running Stage 2 twice on `[hospT]` (the first run does not
touch the cache) returns the same state and the same admitted list. -/
theorem C9_witness :
    stage2_quick_filter cfg0 0 (stage2_quick_filter cfg0 0 st0 [hospT]).1
        (stage2_quick_filter cfg0 0 st0 [hospT]).2 =
      ((stage2_quick_filter cfg0 0 st0 [hospT]).1,
        (stage2_quick_filter cfg0 0 st0 [hospT]).2) :=
  C9_stage2_idempotent cfg0 0 st0 [hospT] (by decide)

end MedDiscovery
